import Mathlib

/-!
Shallow embedding of the NFT auction-and-mint contract
(`src/contract.rs`, `src/error.rs`, `src/msg.rs`) in Lean 4.

Storage is modelled as explicit state passing: the three persistent
stores (Config, ListingStore, MinterRegistry) form a `State` record and
every execute entry point maps a state to a result.  A result is either
`ok` (new state plus the response: attributes and outbound messages),
`err` (a typed `ContractError`; the execution environment then commits
no mutation and no intent, per the atomicity contract), or `panicked`
(the Rust code reached an `unwrap()` of an absent value, i.e. a crash).

`coin_helpers.rs` and `state.rs` are not among the provided sources;
the two functions the core needs from them (`assert_sent_sufficient_coin`
and `read_minter_info`) are modelled from the spec and say so in their
doc comments.  Everything else is translated from `src/contract.rs`.
-/

/-- A coin: denomination plus integer amount (`cosmwasm_std::Coin`). -/
structure Coin where
  denom : String
  amount : Nat
deriving DecidableEq, Repr

/-- Addresses are modelled as strings (`cosmwasm_std::Addr`); address
validation is delegated to the environment per the spec and modelled as
the identity. -/
abbrev Addr := String

/-- A listing record (`state::Listing`), as used by `contract.rs`:
asset identifier, custodian address, seller, current best bid
(optional), current best bidder, and absolute closing height. -/
structure Listing where
  token_id : String
  contract_addr : Addr
  seller : Addr
  max_bid : Option Coin
  max_bidder : Addr
  block_limit : Nat
deriving DecidableEq, Repr

/-- The Config singleton (`state::Config`), per `instantiate` in
`contract.rs`: sequence counter, owner, default authorization window,
Asset-Custodian address. -/
structure Config where
  listing_count : Nat
  owner : Addr
  expiration_time : Nat
  nft_contract_address : Addr
deriving DecidableEq, Repr

/-- A minter-registry record (`state::MinterInfo`): the authorization
window; `contract.rs` treats zero as unauthorized. -/
structure MinterInfo where
  expiration_time : Nat
deriving DecidableEq, Repr

/-- A royalty entry (`state::Royalty`).  Rates are `Decimal256`
fixed-point values, embedded as integer atomics where `10 ^ 18`
represents one. -/
structure Royalty where
  royalty_rate : Nat
deriving DecidableEq, Repr

/-- `Decimal256::one()` in atomics. -/
def decimal_one : Nat := 10 ^ 18

/-- Minted-asset metadata (`state::Metadata`), assembled by
`execute_mint`. -/
structure Metadata where
  name : String
  description : Option String
  external_link : Option String
  collection : Option Nat
  num_real_repr : Nat
  num_nfts : Nat
  royalties : List Royalty
  init_price : Nat
deriving DecidableEq, Repr

/-- The mint request payload (`msg::GFMintMsg`). -/
structure GFMintMsg where
  owner : String
  name : String
  image_uri : Option String
  external_link : Option String
  description : Option String
  collection : Option Nat
  num_real_repr : Nat
  num_nfts : Nat
  royalties : List Royalty
  init_price : Nat
deriving DecidableEq, Repr

/-- The `ResolveListing` query response (`msg::ResolveListingResponse`). -/
structure ResolveListingResponse where
  token_id : String
  contract_addr : Addr
  seller : Addr
  max_bid : Option Coin
  max_bidder : Addr
  block_limit : Nat
deriving DecidableEq, Repr

/-- The parts of `cosmwasm_std::Env` the contract reads: current block
height and the contract's own address (the sentinel "no bid yet"
identity). -/
structure Env where
  block_height : Nat
  contract_address : Addr
deriving DecidableEq, Repr

/-- Outbound intents the contract emits (`CosmosMsg` variants actually
constructed by `contract.rs`): a cw721 `Approve`, a cw721 `TransferNft`,
a `BankMsg::Send`, and a cw721-base `Mint`. -/
inductive CosmosMsg where
  | WasmApprove (contract_addr : String) (spender : String)
      (token_id : String) (expires_at_height : Nat)
  | WasmTransferNft (contract_addr : String) (recipient : String)
      (token_id : String)
  | BankSend (to_address : Addr) (amount : List Coin)
  | WasmMint (contract_addr : String) (token_id : String) (owner : String)
      (token_uri : Option String) (extension : Metadata)
deriving DecidableEq, Repr

/-- A response (`cosmwasm_std::Response`): attributes plus the ordered
list of outbound messages. -/
structure Response where
  attributes : List (String × String)
  msgs : List CosmosMsg
deriving DecidableEq, Repr

/-- The contract's error enum (`error.rs`).  `Std` wraps underlying
storage/validation errors such as load-on-absent-key. -/
inductive ContractError where
  | Std (msg : String)
  | Unauthorized
  | InsufficientFundsSend
  | AuctionEnded
  | AuctionNotEnded
  | UnregisteredMinter
  | InvalidRoyaltyRate
deriving DecidableEq, Repr

/-- Result of executing an entry point: success with the new state and
response, a typed error (no mutation, no intents committed), or a panic
(an `unwrap()` of an absent value in the Rust source). -/
inductive ExecResult (α : Type) where
  | ok (a : α)
  | err (e : ContractError)
  | panicked
deriving DecidableEq, Repr

/-- The persistent stores: Config singleton, ListingStore (key to
listing), MinterRegistry (address to record), each an association
list. -/
structure State where
  config : Config
  listings : List (String × Listing)
  minters : List (Addr × MinterInfo)
deriving DecidableEq, Repr

/-- Lookup in an association list (the storage `load` / `may_load`). -/
def lookupAssoc {α : Type} : List (String × α) → String → Option α
  | [], _ => none
  | (k', v) :: rest, k => if k' = k then some v else lookupAssoc rest k

/-- Remove a key from an association list (the storage `remove`). -/
def removeAssoc {α : Type} : List (String × α) → String → List (String × α)
  | [], _ => []
  | (k', v) :: rest, k =>
      if k' = k then removeAssoc rest k else (k', v) :: removeAssoc rest k

/-- Save under a key, overwriting any previous entry (the storage
`save`). -/
def saveAssoc {α : Type} (l : List (String × α)) (k : String) (v : α) :
    List (String × α) :=
  (k, v) :: removeAssoc l k

/-- `DEFAULT_EXPIRATION` from `contract.rs`. -/
def DEFAULT_EXPIRATION : Nat := 1000000

/-- Modelled from the spec: `assert_sent_sufficient_coin` lives in
`src/coin_helpers.rs`, which is not among the provided sources.  Per the
spec, the funds sent with a bid "must meet-or-exceed the required
minimum — if a prior bid exists the requirement is the prior bid amount,
otherwise the listing's configured minimum bid; insufficiency yields
`InsufficientFundsSend`", and an accepted bid "records the new bidder
and bid": the helper returns the sent coin, which the caller stores as
the new best bid.  `required` is the listing's stored `max_bid`. -/
def assert_sent_sufficient_coin (sent : Coin) (required : Option Coin) :
    Except ContractError Coin :=
  match required with
  | none => .ok sent
  | some r =>
      if sent.denom = r.denom ∧ r.amount ≤ sent.amount then .ok sent
      else .error .InsufficientFundsSend

/-- Modelled from the spec: `read_minter_info` lives in `src/state.rs`,
which is not among the provided sources.  Per the spec, "absence of a
record is equivalent to an authorization window of zero", so the read
returns the stored record or one with window zero. -/
def read_minter_info (minters : List (Addr × MinterInfo)) (sender : Addr) :
    MinterInfo :=
  (lookupAssoc minters sender).getD { expiration_time := 0 }

/-- `update_minters` from `contract.rs`: only the Config owner may
register; stores a MinterInfo with the default window for the minter. -/
def update_minters (st : State) (sender : Addr) (minter : Addr) :
    ExecResult (State × Response) :=
  let owner := st.config.owner
  if sender ≠ owner then .err .Unauthorized
  else
    .ok ({ st with
            minters := saveAssoc st.minters minter
              { expiration_time := DEFAULT_EXPIRATION } },
         { attributes := [], msgs := [] })

/-- `unregister_minter` from `contract.rs`: only the Config owner may
remove; deletes the minter's record. -/
def unregister_minter (st : State) (sender : Addr) (minter : Addr) :
    ExecResult (State × Response) :=
  let owner := st.config.owner
  if sender ≠ owner then .err .Unauthorized
  else
    .ok ({ st with minters := removeAssoc st.minters minter },
         { attributes := [], msgs := [] })

/-- The royalty-sum fold of `execute_mint` (`sum_total_rate`). -/
def sum_royalty_rates (royalties : List Royalty) : Nat :=
  royalties.foldl (fun acc r => acc + r.royalty_rate) 0

/-- `execute_mint` from `contract.rs`: rejects callers whose minter
window is zero, rejects royalty sums above one, increments the shared
sequence counter, stores the config back, and emits one mint intent for
token id `"GF." ++ counter`. -/
def execute_mint (st : State) (sender : Addr) (msg : GFMintMsg) :
    ExecResult (State × Response) :=
  let minter_info := read_minter_info st.minters sender
  if minter_info.expiration_time = 0 then .err .Unauthorized
  else
    let sum_total_rate := sum_royalty_rates msg.royalties
    if decimal_one < sum_total_rate then .err .InvalidRoyaltyRate
    else
      let config := st.config
      let config' := { config with listing_count := config.listing_count + 1 }
      let token_id := "GF" ++ "." ++ toString config'.listing_count
      .ok ({ st with config := config' },
           { attributes := [],
             msgs := [CosmosMsg.WasmMint config'.nft_contract_address
               token_id msg.owner msg.image_uri
               { name := msg.name, description := msg.description,
                 external_link := msg.external_link,
                 collection := some 1,
                 num_real_repr := msg.num_real_repr,
                 num_nfts := msg.num_nfts,
                 royalties := msg.royalties,
                 init_price := msg.init_price }] })

/-- `execute_bid_listing` from `contract.rs`: loads the listing (typed
storage error when absent), rejects once the closing height is strictly
passed, checks the sent funds against the stored `max_bid`, records the
new bidder and bid, and refunds the previous bidder unless the previous
bidder is the contract itself (the sentinel).  The refund amount is
`last_bid.unwrap()`: absent `last_bid` there is a panic. -/
def execute_bid_listing (st : State) (env : Env) (sender : Addr)
    (funds : Coin) (listing_id : String) : ExecResult (State × Response) :=
  match lookupAssoc st.listings listing_id with
  | none => .err (.Std "not found")
  | some listing =>
      if listing.block_limit < env.block_height then .err .AuctionEnded
      else
        match assert_sent_sufficient_coin funds listing.max_bid with
        | .error e => .err e
        | .ok sent_coin =>
            let last_bid := listing.max_bid
            let last_bidder := listing.max_bidder
            let listing' := { listing with
                                max_bidder := sender,
                                max_bid := some sent_coin }
            let st' := { st with
                          listings := saveAssoc st.listings listing_id listing' }
            if env.contract_address ≠ last_bidder then
              match last_bid with
              | some lb =>
                  .ok (st', { attributes := [("Bidding", listing_id)],
                              msgs := [CosmosMsg.BankSend last_bidder [lb]] })
              | none => .panicked
            else
              .ok (st', { attributes := [("Bidding", listing_id)], msgs := [] })

/-- `execute_place_listing` from `contract.rs`: reads the config,
computes `listing_count + 1` (without storing the config back), builds
the listing with the contract's own address as sentinel best bidder and
closing height `height + 50000`, saves it under the incremented count,
and emits the approval intent (expiry `height + 20000`) followed by the
custody-transfer intent. -/
def execute_place_listing (st : State) (env : Env) (sender : Addr)
    (nft_contract_address : String) (id : String) (minimum_bid : Option Coin) :
    ExecResult (State × Response) :=
  let config_state := st.config
  let listing_count := config_state.listing_count + 1
  let listing : Listing :=
    { token_id := id,
      contract_addr := nft_contract_address,
      seller := sender,
      max_bid := minimum_bid,
      max_bidder := env.contract_address,
      block_limit := env.block_height + 50000 }
  let key := toString listing_count
  .ok ({ st with listings := saveAssoc st.listings key listing },
       { attributes := [("place_listing", id)],
         msgs := [CosmosMsg.WasmApprove nft_contract_address
                    env.contract_address id (env.block_height + 20000),
                  CosmosMsg.WasmTransferNft nft_contract_address
                    env.contract_address id] })

/-- `execute_withdraw_listing` from `contract.rs`: loads the listing,
rejects while `block_limit ≥ height`, removes the listing, then either
(real best bidder) emits a `TransferNft` whose token id is the listing
key and a `BankMsg::Send` of `max_bid.unwrap()` both addressed to the
best bidder, or (sentinel) returns the asset to the seller. -/
def execute_withdraw_listing (st : State) (env : Env) (listing_id : String) :
    ExecResult (State × Response) :=
  match lookupAssoc st.listings listing_id with
  | none => .err (.Std "not found")
  | some listing =>
      if env.block_height ≤ listing.block_limit then .err .AuctionNotEnded
      else
        let st' := { st with listings := removeAssoc st.listings listing_id }
        if env.contract_address ≠ listing.max_bidder then
          match listing.max_bid with
          | some mb =>
              .ok (st', { attributes := [("listing_sold", listing_id)],
                          msgs := [CosmosMsg.WasmTransferNft
                                     listing.contract_addr
                                     listing.max_bidder listing_id,
                                   CosmosMsg.BankSend listing.max_bidder [mb]] })
          | none => .panicked
        else
          .ok (st', { attributes := [("listing_unsold", listing_id)],
                      msgs := [CosmosMsg.WasmTransferNft listing.contract_addr
                                 listing.seller listing_id] })

/-- `query_list_resolver` from `contract.rs`: `may_load`s the listing,
then calls `resp.unwrap()`, so an absent key panics instead of
producing a typed not-found error. -/
def query_list_resolver (st : State) (id : String) :
    ExecResult ResolveListingResponse :=
  match lookupAssoc st.listings id with
  | some listing =>
      .ok { token_id := listing.token_id,
            contract_addr := listing.contract_addr,
            seller := listing.seller,
            max_bid := listing.max_bid,
            max_bidder := listing.max_bidder,
            block_limit := listing.block_limit }
  | none => .panicked

/-! Association-list lemmas used by the theorems below. -/

theorem lookup_saveAssoc_self {α : Type} (l : List (String × α)) (k : String)
    (v : α) : lookupAssoc (saveAssoc l k v) k = some v := by
  simp [saveAssoc, lookupAssoc]

theorem lookup_removeAssoc_self {α : Type} (l : List (String × α))
    (k : String) : lookupAssoc (removeAssoc l k) k = none := by
  induction l with
  | nil => simp [removeAssoc, lookupAssoc]
  | cons p rest ih =>
      obtain ⟨k', v⟩ := p
      by_cases h : k' = k
      · simp [removeAssoc, h, ih]
      · simp [removeAssoc, lookupAssoc, h, ih]

theorem mem_removeAssoc {α : Type} {l : List (String × α)} {k : String}
    {p : String × α} (h : p ∈ removeAssoc l k) : p ∈ l := by
  induction l with
  | nil => simp [removeAssoc] at h
  | cons q rest ih =>
      obtain ⟨k', v⟩ := q
      by_cases hk : k' = k
      · simp only [removeAssoc, if_pos hk] at h
        exact List.mem_cons_of_mem _ (ih h)
      · simp only [removeAssoc, if_neg hk, List.mem_cons] at h
        rcases h with h | h
        · exact h ▸ List.mem_cons_self _ _
        · exact List.mem_cons_of_mem _ (ih h)

theorem mem_saveAssoc {α : Type} {l : List (String × α)} {k : String} {v : α}
    {p : String × α} (h : p ∈ saveAssoc l k v) : p = (k, v) ∨ p ∈ l := by
  simp only [saveAssoc, List.mem_cons] at h
  rcases h with h | h
  · exact Or.inl h
  · exact Or.inr (mem_removeAssoc h)

theorem lookupAssoc_mem {α : Type} {l : List (String × α)} {k : String}
    {v : α} (h : lookupAssoc l k = some v) : (k, v) ∈ l := by
  induction l with
  | nil => simp [lookupAssoc] at h
  | cons q rest ih =>
      obtain ⟨k', w⟩ := q
      by_cases hk : k' = k
      · subst hk
        simp only [lookupAssoc, if_true, eq_self_iff_true, Option.some.injEq] at h
        subst h
        exact List.mem_cons_self _ _
      · simp only [lookupAssoc, if_neg hk] at h
        exact List.mem_cons_of_mem _ (ih h)

/-- Whether an execution result is a success. -/
def ExecResult.isOk {α : Type} : ExecResult α → Bool
  | .ok _ => true
  | _ => false

/-! Concrete stores used to evaluate the code on specific inputs. -/

/-- A concrete Config: owner `"alice"`, custodian `"custodian"`,
counter 0, as produced by `instantiate`. -/
def demoConfig : Config :=
  { listing_count := 0, owner := "alice",
    expiration_time := DEFAULT_EXPIRATION,
    nft_contract_address := "custodian" }

/-- A concrete empty state right after instantiation. -/
def demoState : State :=
  { config := demoConfig, listings := [], minters := [] }

/-- A listing with a real best bidder: asset `"tok"`, custodian
`"nftc"`, seller `"alice"`, best bid 150 `"u"` by `"bob"`, closing
height 100. -/
def soldListing : Listing :=
  { token_id := "tok", contract_addr := "nftc", seller := "alice",
    max_bid := some { denom := "u", amount := 150 },
    max_bidder := "bob", block_limit := 100 }

/-- C1: the claim says a WithdrawListing with a real best bidder emits
an asset transfer of the stored asset identifier to the best bidder and
a value transfer of the best bid to the seller.  Evaluating
`execute_withdraw_listing` past the closing height on a concrete sold
listing shows the code instead emits the asset transfer with the
listing key `"1"` as token id (not the stored `"tok"`) and sends the
150 `"u"` to the best bidder `"bob"`, not to the seller `"alice"` —
contradicting the source's own comment "Transfer the locked NFT to
highest bidder and bid amount to the seller". -/
theorem withdraw_routes_payout_to_bidder :
    execute_withdraw_listing
      { config := demoConfig, listings := [("1", soldListing)], minters := [] }
      { block_height := 101, contract_address := "auction" } "1" =
    .ok ({ config := demoConfig, listings := [], minters := [] },
         { attributes := [("listing_sold", "1")],
           msgs := [CosmosMsg.WasmTransferNft "nftc" "bob" "1",
                    CosmosMsg.BankSend "bob"
                      [{ denom := "u", amount := 150 }]] }) := by
  rfl

/-- C2: the claim says every successful PlaceListing increments the
stored sequence counter, so two placements get distinct keys.
Evaluating two consecutive placements from the freshly instantiated
state shows `execute_place_listing` never stores the incremented
counter back: the counter stays 0, no listing exists under key `"2"`,
and the second listing overwrites the first under key `"1"`. -/
theorem place_listing_counter_not_stored :
    ∃ st1 r1 st2 r2,
      execute_place_listing demoState
        { block_height := 10, contract_address := "auction" }
        "s1" "nftc" "tokA" none = .ok (st1, r1) ∧
      execute_place_listing st1
        { block_height := 10, contract_address := "auction" }
        "s2" "nftc" "tokB" none = .ok (st2, r2) ∧
      st2.config.listing_count = 0 ∧
      lookupAssoc st2.listings "2" = none ∧
      (lookupAssoc st2.listings "1").map Listing.token_id = some "tokB" ∧
      st2.listings.length = 1 := by
  exact ⟨_, _, _, _, rfl, rfl, rfl, rfl, rfl, rfl⟩

/-- C3: the claim says ResolveListing on an absent key returns a typed
not-found error rather than crashing.  Evaluating
`query_list_resolver` on the empty store shows the code panics (it
unwraps the absent value), not a typed error. -/
theorem resolve_listing_panics_when_absent :
    query_list_resolver demoState "1" = .panicked := by
  rfl

/-- C5: every successful PlaceListing at height `h` stores a listing
with closing height `h + 50000`, the contract's own (sentinel) address
as best bidder and the supplied minimum bid as best bid, and emits
exactly two intents in order: the custodian approval with expiry
`h + 20000`, then the custody transfer to the contract. -/
theorem place_listing_effects (st : State) (env : Env) (sender : Addr)
    (nca id : String) (mb : Option Coin) :
    ∃ st' : State,
      execute_place_listing st env sender nca id mb =
        .ok (st', { attributes := [("place_listing", id)],
                    msgs := [CosmosMsg.WasmApprove nca env.contract_address id
                               (env.block_height + 20000),
                             CosmosMsg.WasmTransferNft nca
                               env.contract_address id] }) ∧
      lookupAssoc st'.listings (toString (st.config.listing_count + 1)) =
        some { token_id := id, contract_addr := nca, seller := sender,
               max_bid := mb, max_bidder := env.contract_address,
               block_limit := env.block_height + 50000 } := by
  refine ⟨_, rfl, ?_⟩
  exact lookup_saveAssoc_self _ _ _

/-! Facts about the funds check used by the bid path. -/

theorem assert_sent_error (sent : Coin) (required : Option Coin)
    {e : ContractError}
    (h : assert_sent_sufficient_coin sent required = .error e) :
    e = .InsufficientFundsSend := by
  cases required with
  | none => simp [assert_sent_sufficient_coin] at h
  | some r =>
      by_cases hc : sent.denom = r.denom ∧ r.amount ≤ sent.amount
      · simp [assert_sent_sufficient_coin, hc] at h
      · simp [assert_sent_sufficient_coin, hc] at h
        exact h.symm

theorem assert_sent_ok (sent : Coin) (required : Option Coin) {c : Coin}
    (h : assert_sent_sufficient_coin sent required = .ok c) :
    c = sent ∧ ∀ r ∈ required, r.denom = sent.denom ∧ r.amount ≤ sent.amount := by
  cases required with
  | none =>
      simp only [assert_sent_sufficient_coin, Except.ok.injEq] at h
      refine ⟨h.symm, ?_⟩
      intro r hr
      cases hr
  | some r =>
      by_cases hc : sent.denom = r.denom ∧ r.amount ≤ sent.amount
      · simp only [assert_sent_sufficient_coin, if_pos hc, Except.ok.injEq] at h
        refine ⟨h.symm, ?_⟩
        intro x hx
        rw [Option.mem_def, Option.some.injEq] at hx
        subst hx
        exact ⟨hc.1.symm, hc.2⟩
      · simp [assert_sent_sufficient_coin, if_neg hc] at h

/-- A listing with best bid 100 `"u"` by `"carol"`, closing height 100,
used to evaluate the bid and withdraw paths on concrete inputs. -/
def bidDemoListing : Listing :=
  { token_id := "tok", contract_addr := "nftc", seller := "alice",
    max_bid := some { denom := "u", amount := 100 },
    max_bidder := "carol", block_limit := 100 }

/-- A state holding `bidDemoListing` under key `"1"`. -/
def bidDemoState : State :=
  { config := demoConfig, listings := [("1", bidDemoListing)], minters := [] }

/-- The state after `"bob"` outbids with 120 `"u"`. -/
def bidDemoState2 : State :=
  { config := demoConfig,
    listings := saveAssoc bidDemoState.listings "1"
      { bidDemoListing with max_bidder := "bob",
                            max_bid := some { denom := "u", amount := 120 } },
    minters := [] }

/-- The response of that outbid: one refund intent to `"carol"`. -/
def bidDemoResp : Response :=
  { attributes := [("Bidding", "1")],
    msgs := [CosmosMsg.BankSend "carol" [{ denom := "u", amount := 100 }]] }

/-- C4: an accepted bid records the sender and the sent coin as new
best bid, the new amount is at least every previously recorded amount
(so the best-bid amount is non-decreasing along any sequence of
accepted bids), a first bid (previous best bidder is the sentinel
contract address) emits zero messages, and every later accepted bid
emits exactly one value-transfer intent refunding the previous bidder
exactly the previously recorded amount. -/
theorem bid_accept_monotone_refund (st : State) (env : Env) (sender : Addr)
    (funds : Coin) (id : String) (l : Listing) (st' : State) (resp : Response)
    (hl : lookupAssoc st.listings id = some l)
    (hok : execute_bid_listing st env sender funds id = .ok (st', resp)) :
    lookupAssoc st'.listings id =
      some { l with max_bidder := sender, max_bid := some funds } ∧
    (∀ old ∈ l.max_bid, old.amount ≤ funds.amount) ∧
    (l.max_bidder = env.contract_address → resp.msgs = []) ∧
    (l.max_bidder ≠ env.contract_address →
       ∃ lb, l.max_bid = some lb ∧
         resp.msgs = [CosmosMsg.BankSend l.max_bidder [lb]]) := by
  by_cases h2 : l.block_limit < env.block_height
  · simp [execute_bid_listing, hl, if_pos h2] at hok
  · simp only [execute_bid_listing, hl, if_neg h2] at hok
    cases hres : assert_sent_sufficient_coin funds l.max_bid with
    | error e => rw [hres] at hok; cases hok
    | ok c =>
        rw [hres] at hok
        dsimp only at hok
        obtain ⟨hc, hmin⟩ := assert_sent_ok funds l.max_bid hres
        subst hc
        by_cases hb : env.contract_address ≠ l.max_bidder
        · rw [if_pos hb] at hok
          cases hmb : l.max_bid with
          | none => rw [hmb] at hok; cases hok
          | some lb =>
              rw [hmb] at hok
              dsimp only at hok
              simp only [ExecResult.ok.injEq, Prod.mk.injEq] at hok
              obtain ⟨hst, hresp⟩ := hok
              subst hst
              subst hresp
              refine ⟨lookup_saveAssoc_self _ _ _, ?_, ?_, ?_⟩
              · intro old hold
                rw [Option.mem_def, Option.some.injEq] at hold
                subst hold
                exact (hmin _ (by rw [hmb]; rfl)).2
              · intro hsent
                exact absurd hsent.symm hb
              · intro _
                exact ⟨lb, rfl, rfl⟩
        · rw [if_neg hb] at hok
          simp only [ExecResult.ok.injEq, Prod.mk.injEq] at hok
          obtain ⟨hst, hresp⟩ := hok
          subst hst
          subst hresp
          rw [not_ne_iff] at hb
          refine ⟨lookup_saveAssoc_self _ _ _, ?_, ?_, ?_⟩
          · intro old hold
            exact (hmin old hold).2
          · intro _
            rfl
          · intro hne
            exact absurd hb.symm hne

/-- C4 witness: evaluating the theorem on the concrete outbid of
`bidDemoListing` by `"bob"` with 120 `"u"` at height 50. -/
theorem bid_accept_monotone_refund_witness :
    lookupAssoc bidDemoState2.listings "1" =
      some { bidDemoListing with max_bidder := "bob",
                                 max_bid := some { denom := "u", amount := 120 } } ∧
    (∀ old ∈ bidDemoListing.max_bid,
       old.amount ≤ Coin.amount { denom := "u", amount := 120 }) ∧
    (bidDemoListing.max_bidder = "auction" → bidDemoResp.msgs = []) ∧
    (bidDemoListing.max_bidder ≠ "auction" →
       ∃ lb, bidDemoListing.max_bid = some lb ∧
         bidDemoResp.msgs = [CosmosMsg.BankSend bidDemoListing.max_bidder [lb]]) :=
  bid_accept_monotone_refund bidDemoState
    { block_height := 50, contract_address := "auction" } "bob"
    { denom := "u", amount := 120 } "1" bidDemoListing bidDemoState2
    bidDemoResp rfl rfl

/-- C6: a bid strictly after the closing height is rejected with
`AuctionEnded` (the error path returns no new state and no messages),
while a bid at exactly the closing height is never rejected with
`AuctionEnded`. -/
theorem bid_after_close_rejected (st : State) (env : Env) (sender : Addr)
    (funds : Coin) (id : String) (l : Listing)
    (hl : lookupAssoc st.listings id = some l) :
    (l.block_limit < env.block_height →
       execute_bid_listing st env sender funds id = .err .AuctionEnded) ∧
    (env.block_height ≤ l.block_limit →
       execute_bid_listing st env sender funds id ≠ .err .AuctionEnded) := by
  constructor
  · intro h
    simp [execute_bid_listing, hl, if_pos h]
  · intro h hcontra
    have h2 : ¬ l.block_limit < env.block_height := not_lt.mpr h
    simp only [execute_bid_listing, hl, if_neg h2] at hcontra
    cases hres : assert_sent_sufficient_coin funds l.max_bid with
    | error e =>
        rw [hres] at hcontra
        have he := assert_sent_error funds l.max_bid hres
        subst he
        cases hcontra
    | ok c =>
        rw [hres] at hcontra
        dsimp only at hcontra
        by_cases hb : env.contract_address ≠ l.max_bidder
        · rw [if_pos hb] at hcontra
          cases hmb : l.max_bid with
          | some lb => rw [hmb] at hcontra; cases hcontra
          | none => rw [hmb] at hcontra; cases hcontra
        · rw [if_neg hb] at hcontra
          cases hcontra

/-- C6 witness: a bid at height 101 on a listing closing at 100 is
rejected with `AuctionEnded`; the theorem is applied at that input. -/
theorem bid_after_close_rejected_witness :
    execute_bid_listing bidDemoState
      { block_height := 101, contract_address := "auction" } "bob"
      { denom := "u", amount := 120 } "1" = .err .AuctionEnded :=
  (bid_after_close_rejected bidDemoState
    { block_height := 101, contract_address := "auction" } "bob"
    { denom := "u", amount := 120 } "1" bidDemoListing rfl).1 (by decide)

/-- C7: a bid whose sent coin is below the stored required minimum
(the previous bid when one exists, otherwise the configured minimum —
both live in the listing's `max_bid` field) is rejected with
`InsufficientFundsSend`; the error path returns no new state and no
messages. -/
theorem bid_insufficient_rejected (st : State) (env : Env) (sender : Addr)
    (funds : Coin) (id : String) (l : Listing) (r : Coin)
    (hl : lookupAssoc st.listings id = some l)
    (ht : env.block_height ≤ l.block_limit)
    (hr : l.max_bid = some r)
    (hlt : funds.amount < r.amount) :
    execute_bid_listing st env sender funds id =
      .err .InsufficientFundsSend := by
  have h2 : ¬ l.block_limit < env.block_height := not_lt.mpr ht
  have hc : ¬ (funds.denom = r.denom ∧ r.amount ≤ funds.amount) := by
    intro hab
    exact absurd hab.2 (not_le.mpr hlt)
  have hassert : assert_sent_sufficient_coin funds l.max_bid =
      .error .InsufficientFundsSend := by
    rw [hr]
    simp [assert_sent_sufficient_coin, if_neg hc]
  simp [execute_bid_listing, hl, if_neg h2, hassert]

/-- C7 witness: a bid of 90 `"u"` against a required 100 `"u"` at
height 50 is rejected with `InsufficientFundsSend`; the theorem is
applied at that input. -/
theorem bid_insufficient_rejected_witness :
    execute_bid_listing bidDemoState
      { block_height := 50, contract_address := "auction" } "bob"
      { denom := "u", amount := 90 } "1" = .err .InsufficientFundsSend :=
  bid_insufficient_rejected bidDemoState
    { block_height := 50, contract_address := "auction" } "bob"
    { denom := "u", amount := 90 } "1" bidDemoListing
    { denom := "u", amount := 100 } rfl (by decide) rfl (by decide)

/-- The response of withdrawing the sold `bidDemoListing`. -/
def withdrawDemoResp : Response :=
  { attributes := [("listing_sold", "1")],
    msgs := [CosmosMsg.WasmTransferNft "nftc" "carol" "1",
             CosmosMsg.BankSend "carol" [{ denom := "u", amount := 100 }]] }

/-- C8: a withdraw at a height less than or equal to the closing height
is rejected with `AuctionNotEnded` (the error path deletes nothing),
while every successful withdraw at a height strictly greater than the
closing height removes the listing from the store. -/
theorem withdraw_timing_delete (st : State) (env : Env) (id : String)
    (l : Listing) (hl : lookupAssoc st.listings id = some l) :
    (env.block_height ≤ l.block_limit →
       execute_withdraw_listing st env id = .err .AuctionNotEnded) ∧
    (l.block_limit < env.block_height →
       ∀ st' resp, execute_withdraw_listing st env id = .ok (st', resp) →
         lookupAssoc st'.listings id = none) := by
  constructor
  · intro h
    simp [execute_withdraw_listing, hl, if_pos h]
  · intro h st' resp hok
    have h2 : ¬ env.block_height ≤ l.block_limit := not_le.mpr h
    simp only [execute_withdraw_listing, hl, if_neg h2] at hok
    by_cases hb : env.contract_address ≠ l.max_bidder
    · rw [if_pos hb] at hok
      cases hmb : l.max_bid with
      | none => rw [hmb] at hok; cases hok
      | some mb =>
          rw [hmb] at hok
          dsimp only at hok
          simp only [ExecResult.ok.injEq, Prod.mk.injEq] at hok
          obtain ⟨hst, -⟩ := hok
          subst hst
          exact lookup_removeAssoc_self _ _
    · rw [if_neg hb] at hok
      simp only [ExecResult.ok.injEq, Prod.mk.injEq] at hok
      obtain ⟨hst, -⟩ := hok
      subst hst
      exact lookup_removeAssoc_self _ _

/-- C8 witness: withdrawing at height 100 (equal to the closing height)
is rejected with `AuctionNotEnded`; withdrawing at height 101 deletes
the listing; both by applying the theorem at those inputs. -/
theorem withdraw_timing_delete_witness :
    execute_withdraw_listing bidDemoState
      { block_height := 100, contract_address := "auction" } "1" =
      .err .AuctionNotEnded ∧
    lookupAssoc demoState.listings "1" = none :=
  ⟨(withdraw_timing_delete bidDemoState
      { block_height := 100, contract_address := "auction" } "1"
      bidDemoListing rfl).1 (by decide),
   (withdraw_timing_delete bidDemoState
      { block_height := 101, contract_address := "auction" } "1"
      bidDemoListing rfl).2 (by decide) demoState withdrawDemoResp rfl⟩

/-- A mint request with royalties summing to exactly one. -/
def demoMintMsg : GFMintMsg :=
  { owner := "bob", name := "piece", image_uri := none,
    external_link := none, description := none, collection := none,
    num_real_repr := 1, num_nfts := 1,
    royalties := [{ royalty_rate := 6 * 10 ^ 17 },
                  { royalty_rate := 4 * 10 ^ 17 }],
    init_price := 10 }

/-- C9: Mint fails with `Unauthorized` exactly when the caller's minter
window is zero or absent (no comparison against any height is made: the
result does not depend on time at all); for an authorized caller it
fails with `InvalidRoyaltyRate` exactly when the royalty rates sum to
strictly more than one; and a minter registered by the owner (window
`DEFAULT_EXPIRATION`, non-zero) with royalty sum at most one — so in
particular exactly one — succeeds. -/
theorem mint_authorization_royalty (st : State) (sender m : Addr)
    (msg : GFMintMsg) :
    (execute_mint st sender msg = .err .Unauthorized ↔
       (read_minter_info st.minters sender).expiration_time = 0) ∧
    ((read_minter_info st.minters sender).expiration_time ≠ 0 →
       (execute_mint st sender msg = .err .InvalidRoyaltyRate ↔
          decimal_one < sum_royalty_rates msg.royalties)) ∧
    (∀ st₁ r₁, update_minters st st.config.owner m = .ok (st₁, r₁) →
       sum_royalty_rates msg.royalties ≤ decimal_one →
       (execute_mint st₁ m msg).isOk = true) := by
  refine ⟨?_, ?_, ?_⟩
  · by_cases h : (read_minter_info st.minters sender).expiration_time = 0
    · simp [execute_mint, h]
    · by_cases hs : decimal_one < sum_royalty_rates msg.royalties
      · simp [execute_mint, h, hs]
      · simp [execute_mint, h, hs]
  · intro h
    by_cases hs : decimal_one < sum_royalty_rates msg.royalties
    · simp [execute_mint, h, hs]
    · simp [execute_mint, h, hs]
  · intro st₁ r₁ hupd hsum
    simp only [update_minters, ne_eq, not_true_eq_false, if_neg,
      not_false_eq_true, ExecResult.ok.injEq, Prod.mk.injEq] at hupd
    obtain ⟨hst, -⟩ := hupd
    subst hst
    have hns : ¬ decimal_one < sum_royalty_rates msg.royalties :=
      not_lt.mpr hsum
    simp [execute_mint, read_minter_info, lookup_saveAssoc_self,
      DEFAULT_EXPIRATION, hns, ExecResult.isOk]

/-- C9 witness: `"bob"`, registered by owner `"alice"`, mints with
royalties summing to exactly one and succeeds; the theorem is applied
at those inputs. -/
theorem mint_authorization_royalty_witness :
    (execute_mint
      { config := demoConfig, listings := [],
        minters := saveAssoc [] "bob"
          { expiration_time := DEFAULT_EXPIRATION } }
      "bob" demoMintMsg).isOk = true :=
  (mint_authorization_royalty demoState "carol" "bob" demoMintMsg).2.2
    _ _ rfl (by decide)

/-- The invariant of C10: every stored listing whose best bidder
differs from the sentinel contract address `c` has a present best
bid. -/
def sentinelInv (c : Addr) (st : State) : Prop :=
  ∀ p ∈ st.listings, p.2.max_bidder ≠ c → p.2.max_bid.isSome = true

/-- C10: every operation preserves the invariant that a listing with a
real (non-sentinel) best bidder has a present best bid, and under that
invariant the `unwrap` of the previous bid in the bid path and of the
final bid in the withdraw path never panic: neither operation ever
returns `panicked`. -/
theorem sentinel_bid_invariant (st : State) (env : Env)
    (hinv : sentinelInv env.contract_address st) :
    (∀ sender nca id mb st' r,
        execute_place_listing st env sender nca id mb = .ok (st', r) →
        sentinelInv env.contract_address st') ∧
    (∀ sender funds id,
        execute_bid_listing st env sender funds id ≠ .panicked ∧
        ∀ st' r, execute_bid_listing st env sender funds id = .ok (st', r) →
          sentinelInv env.contract_address st') ∧
    (∀ id, execute_withdraw_listing st env id ≠ .panicked ∧
        ∀ st' r, execute_withdraw_listing st env id = .ok (st', r) →
          sentinelInv env.contract_address st') ∧
    (∀ sender msg st' r, execute_mint st sender msg = .ok (st', r) →
        sentinelInv env.contract_address st') ∧
    (∀ sender m st' r, update_minters st sender m = .ok (st', r) →
        sentinelInv env.contract_address st') ∧
    (∀ sender m st' r, unregister_minter st sender m = .ok (st', r) →
        sentinelInv env.contract_address st') := by
  refine ⟨?_, ?_, ?_, ?_, ?_, ?_⟩
  · -- PlaceListing: the new listing's best bidder is the sentinel.
    intro sender nca id mb st' r hok
    simp only [execute_place_listing, ExecResult.ok.injEq, Prod.mk.injEq] at hok
    obtain ⟨hst, -⟩ := hok
    subst hst
    intro p hp hpne
    rcases mem_saveAssoc hp with heq | hmem
    · subst heq
      exact absurd rfl hpne
    · exact hinv p hmem hpne
  · -- BidListing: never panics, and an accepted bid stores a present bid.
    intro sender funds id
    cases hlk : lookupAssoc st.listings id with
    | none =>
        constructor
        · intro hpan
          simp [execute_bid_listing, hlk] at hpan
        · intro st' r hok
          simp [execute_bid_listing, hlk] at hok
    | some l =>
        by_cases h2 : l.block_limit < env.block_height
        · constructor
          · intro hpan
            simp [execute_bid_listing, hlk, if_pos h2] at hpan
          · intro st' r hok
            simp [execute_bid_listing, hlk, if_pos h2] at hok
        · cases hres : assert_sent_sufficient_coin funds l.max_bid with
          | error e =>
              constructor
              · intro hpan
                simp only [execute_bid_listing, hlk, if_neg h2] at hpan
                rw [hres] at hpan
                cases hpan
              · intro st' r hok
                simp only [execute_bid_listing, hlk, if_neg h2] at hok
                rw [hres] at hok
                cases hok
          | ok c =>
              by_cases hb : env.contract_address ≠ l.max_bidder
              · cases hmb : l.max_bid with
                | none =>
                    have hs := hinv (id, l) (lookupAssoc_mem hlk) (Ne.symm hb)
                    dsimp only at hs
                    rw [hmb] at hs
                    cases hs
                | some lb =>
                    constructor
                    · intro hpan
                      simp only [execute_bid_listing, hlk, if_neg h2] at hpan
                      rw [hres] at hpan
                      dsimp only at hpan
                      rw [if_pos hb, hmb] at hpan
                      cases hpan
                    · intro st' r hok
                      simp only [execute_bid_listing, hlk, if_neg h2] at hok
                      rw [hres] at hok
                      dsimp only at hok
                      rw [if_pos hb, hmb] at hok
                      dsimp only at hok
                      simp only [ExecResult.ok.injEq, Prod.mk.injEq] at hok
                      obtain ⟨hst, -⟩ := hok
                      subst hst
                      intro p hp hpne
                      rcases mem_saveAssoc hp with heq | hmem
                      · subst heq
                        rfl
                      · exact hinv p hmem hpne
              · constructor
                · intro hpan
                  simp only [execute_bid_listing, hlk, if_neg h2] at hpan
                  rw [hres] at hpan
                  dsimp only at hpan
                  rw [if_neg hb] at hpan
                  cases hpan
                · intro st' r hok
                  simp only [execute_bid_listing, hlk, if_neg h2] at hok
                  rw [hres] at hok
                  dsimp only at hok
                  rw [if_neg hb] at hok
                  simp only [ExecResult.ok.injEq, Prod.mk.injEq] at hok
                  obtain ⟨hst, -⟩ := hok
                  subst hst
                  intro p hp hpne
                  rcases mem_saveAssoc hp with heq | hmem
                  · subst heq
                    rfl
                  · exact hinv p hmem hpne
  · -- WithdrawListing: never panics, and deletion preserves the invariant.
    intro id
    cases hlk : lookupAssoc st.listings id with
    | none =>
        constructor
        · intro hpan
          simp [execute_withdraw_listing, hlk] at hpan
        · intro st' r hok
          simp [execute_withdraw_listing, hlk] at hok
    | some l =>
        by_cases h2 : env.block_height ≤ l.block_limit
        · constructor
          · intro hpan
            simp [execute_withdraw_listing, hlk, if_pos h2] at hpan
          · intro st' r hok
            simp [execute_withdraw_listing, hlk, if_pos h2] at hok
        · by_cases hb : env.contract_address ≠ l.max_bidder
          · cases hmb : l.max_bid with
            | none =>
                have hs := hinv (id, l) (lookupAssoc_mem hlk) (Ne.symm hb)
                dsimp only at hs
                rw [hmb] at hs
                cases hs
            | some mb =>
                constructor
                · intro hpan
                  simp only [execute_withdraw_listing, hlk, if_neg h2] at hpan
                  rw [if_pos hb, hmb] at hpan
                  cases hpan
                · intro st' r hok
                  simp only [execute_withdraw_listing, hlk, if_neg h2] at hok
                  rw [if_pos hb, hmb] at hok
                  dsimp only at hok
                  simp only [ExecResult.ok.injEq, Prod.mk.injEq] at hok
                  obtain ⟨hst, -⟩ := hok
                  subst hst
                  intro p hp hpne
                  exact hinv p (mem_removeAssoc hp) hpne
          · constructor
            · intro hpan
              simp only [execute_withdraw_listing, hlk, if_neg h2] at hpan
              rw [if_neg hb] at hpan
              cases hpan
            · intro st' r hok
              simp only [execute_withdraw_listing, hlk, if_neg h2] at hok
              rw [if_neg hb] at hok
              simp only [ExecResult.ok.injEq, Prod.mk.injEq] at hok
              obtain ⟨hst, -⟩ := hok
              subst hst
              intro p hp hpne
              exact hinv p (mem_removeAssoc hp) hpne
  · -- Mint: does not touch the listing store.
    intro sender msg st' r hok
    by_cases h : (read_minter_info st.minters sender).expiration_time = 0
    · simp [execute_mint, h] at hok
    · by_cases hs : decimal_one < sum_royalty_rates msg.royalties
      · simp [execute_mint, h, hs] at hok
      · simp only [execute_mint, if_neg h, if_neg hs, ExecResult.ok.injEq,
          Prod.mk.injEq] at hok
        obtain ⟨hst, -⟩ := hok
        subst hst
        exact hinv
  · -- RegisterMinter: does not touch the listing store.
    intro sender m st' r hok
    by_cases h : sender ≠ st.config.owner
    · simp [update_minters, if_pos h] at hok
    · simp only [update_minters, if_neg h, ExecResult.ok.injEq,
        Prod.mk.injEq] at hok
      obtain ⟨hst, -⟩ := hok
      subst hst
      exact hinv
  · -- RemoveMinter: does not touch the listing store.
    intro sender m st' r hok
    by_cases h : sender ≠ st.config.owner
    · simp [unregister_minter, if_pos h] at hok
    · simp only [unregister_minter, if_neg h, ExecResult.ok.injEq,
        Prod.mk.injEq] at hok
      obtain ⟨hst, -⟩ := hok
      subst hst
      exact hinv

/-- C10 witness: the invariant holds for the state obtained by placing
a listing with no minimum bid on the empty state; the theorem's
PlaceListing conjunct is applied at that input, with the empty-state
invariant discharged directly. -/
theorem sentinel_bid_invariant_witness :
    sentinelInv "auction"
      { config := demoConfig,
        listings := saveAssoc [] "1"
          { token_id := "tokA", contract_addr := "nftc", seller := "s1",
            max_bid := none, max_bidder := "auction",
            block_limit := 50010 },
        minters := [] } :=
  (sentinel_bid_invariant demoState
      { block_height := 10, contract_address := "auction" }
      (by intro p hp; cases hp)).1
    "s1" "nftc" "tokA" none _ _ rfl
